import Mathlib

/-!
Verification of the linear motion core (`src/motion/linear_axis.c`) of the
fishfood pick-and-place firmware.

The C code is embedded shallowly:

* `float` kinematics are modelled as exact rationals (`ℚ`);
* `int32_t` step counters are modelled as `Int` (the claims under study are
  about step bookkeeping, far from the 32-bit overflow boundary);
* `lroundf` (round half away from zero) is `lroundQ`, `ceilf` is `Int.ceil`,
  and the C cast `(int64_t)` applied to a nonnegative float (truncation
  toward zero) is `truncQ`;
* `sqrtf` is an abstract parameter `sq : ℚ → ℚ` threaded through the
  functions that need it, so every theorem holds for any square-root
  implementation;
* the monotonic microsecond clock is threaded explicitly: every operation
  that reads `get_absolute_time()` takes the current time as an argument,
  and the busy loops take a time oracle `time : ℕ → Int` giving the clock
  value observed at each iteration;
* the driver stall flag and the endstop GPIO reads are external inputs,
  modelled as per-iteration oracles `stall : ℕ → Bool`, `gpio : ℕ → ℕ`;
* the unbounded `while` loops of the homing routines are modelled with an
  explicit fuel parameter, returning `none` when the fuel runs out.
-/

/-- `lroundf`: round to nearest integer, halfway cases away from zero. -/
def lroundQ (q : ℚ) : Int :=
  if 0 ≤ q then ⌊q + (1 : ℚ)/2⌋ else ⌈q - (1 : ℚ)/2⌉

/-- The C cast `(int64_t)x` on a float: truncation toward zero. -/
def truncQ (q : ℚ) : Int :=
  if 0 ≤ q then ⌊q⌋ else ⌈q⌉

/-- Modelled from the spec: the stepper driver object (`struct Stepper`) lives in
`drivers/` which is not part of the sources under study.  Spec section 6 gives its
contract: fields `total_steps` (signed step counter) and `direction` (±1), plus a
stallguard enable flag and sensitivity threshold. -/
structure Stepper where
  total_steps : Int
  direction : Int
  stallguard_on : Bool
  stallguard_threshold : Int
deriving DecidableEq

/-- Modelled from the spec: `Stepper_step` emits one pulse; per the driver contract
(spec sections 3 and 6) `total_steps` advances by exactly `direction` per pulse. -/
def Stepper_step (s : Stepper) : Stepper :=
  { s with total_steps := s.total_steps + s.direction }

/-- Modelled from the spec: `Stepper_step_two` pulses two drivers synchronously. -/
def Stepper_step_two (a b : Stepper) : Stepper × Stepper :=
  (Stepper_step a, Stepper_step b)

/-- Modelled from the spec: `enable_stallguard(sensitivity)` arms stall detection. -/
def Stepper_enable_stallguard (s : Stepper) (sensitivity : Int) : Stepper :=
  { s with stallguard_on := true, stallguard_threshold := sensitivity }

/-- Modelled from the spec: `disable_stallguard()` disarms stall detection. -/
def Stepper_disable_stallguard (s : Stepper) : Stepper :=
  { s with stallguard_on := false }

/-- `struct LinearAxisMovement`: a trapezoidal plan in integer step space. -/
structure LinearAxisMovement where
  direction : Int
  accel_step_count : Int
  decel_step_count : Int
  coast_step_count : Int
  total_step_count : Int
  steps_taken : Int
deriving DecidableEq

/-- The C zero initializer `(struct LinearAxisMovement){}`. -/
def LinearAxisMovement.zero : LinearAxisMovement :=
  { direction := 0, accel_step_count := 0, decel_step_count := 0,
    coast_step_count := 0, total_step_count := 0, steps_taken := 0 }

/-- `struct LinearAxis` (fields as used by `linear_axis.c` and listed in spec
section 3).  `_next_step_at` is an absolute time in microseconds. -/
structure LinearAxis where
  name : Char
  steps_per_mm : ℚ
  velocity_mm_s : ℚ
  acceleration_mm_s2 : ℚ
  homing_velocity_mm_s : ℚ
  homing_acceleration_mm_s2 : ℚ
  homing_direction : ℚ
  homing_distance_mm : ℚ
  homing_bounce_mm : ℚ
  homing_sensitivity : Int
  endstop : ℕ
  stepper : Stepper
  stepper2 : Option Stepper
  _current_move : LinearAxisMovement
  _step_interval : Int
  _next_step_at : Int
deriving DecidableEq

/-- The step target of `lroundf(ceilf(dest_mm * m->steps_per_mm))`
(`LinearAxis_calculate_move`, `LinearAxis_set_position_mm`). -/
def LinearAxis_dest_steps (m : LinearAxis) (dest_mm : ℚ) : Int :=
  lroundQ ((⌈dest_mm * m.steps_per_mm⌉ : Int) : ℚ)

/-- The ideal ramp length in steps
(`lroundf(accel_distance_mm * m->steps_per_mm)` in `LinearAxis_calculate_move`,
with `accel_distance_mm = 0.5f * accel_time_s * velocity` and
`accel_time_s = velocity / acceleration`). -/
def LinearAxis_accel_steps (m : LinearAxis) : Int :=
  let accel_time_s := m.velocity_mm_s / m.acceleration_mm_s2
  let accel_distance_mm := (1 : ℚ)/2 * accel_time_s * m.velocity_mm_s
  lroundQ (accel_distance_mm * m.steps_per_mm)

/-- `LinearAxis_calculate_move` (linear_axis.c lines 145-187). -/
def LinearAxis_calculate_move (m : LinearAxis) (dest_mm : ℚ) : LinearAxisMovement :=
  let dest_steps : Int := LinearAxis_dest_steps m dest_mm
  let delta_steps : Int := dest_steps - m.stepper.total_steps
  let dir : Int := if delta_steps < 0 then -1 else 1
  let total_step_count : Int := |delta_steps|
  let accel_step_count : Int := LinearAxis_accel_steps m
  let decel_step_count : Int := accel_step_count
  let coast_step_count : Int := total_step_count - accel_step_count - decel_step_count
  if coast_step_count ≤ 0 then
    { direction := dir,
      accel_step_count := total_step_count / 2,
      decel_step_count := total_step_count - total_step_count / 2,
      coast_step_count := 0,
      total_step_count := total_step_count,
      steps_taken := 0 }
  else
    { direction := dir,
      accel_step_count := accel_step_count,
      decel_step_count := decel_step_count,
      coast_step_count := coast_step_count,
      total_step_count := total_step_count,
      steps_taken := 0 }

/-- `LinearAxis_start_move` (lines 189-207); `now` is the clock value read by
`make_timeout_time_us`, and the bootstrap interval is 100 microseconds. -/
def LinearAxis_start_move (m : LinearAxis) (move : LinearAxisMovement) (now : Int) : LinearAxis :=
  { m with
    stepper := { m.stepper with direction := move.direction },
    stepper2 := Option.map (fun s => { s with direction := move.direction }) m.stepper2,
    _current_move := move,
    _step_interval := 100,
    _next_step_at := now + 100 }

/-- Modelled from the spec: `LinearAxis_is_moving` lives in `linear_axis.h`, which is
absent from the sources; spec section 4.2 says it is true iff `total_step_count > 0`. -/
def LinearAxis_is_moving (m : LinearAxis) : Bool :=
  0 < m._current_move.total_step_count

/-- Modelled from the spec: `LinearAxis_stop` lives in `linear_axis.h`, absent from
the sources; spec section 4.2 says it replaces the movement with the zero plan and
does not change position. -/
def LinearAxis_stop (m : LinearAxis) : LinearAxis :=
  { m with _current_move := LinearAxisMovement.zero }

/-- Modelled from the spec: `LinearAxis_reset_position` lives in `linear_axis.h`,
absent from the sources; spec section 4.3 says the homing routines re-zero the step
counter after each seek, making the trigger point the new origin. -/
def LinearAxis_reset_position (m : LinearAxis) : LinearAxis :=
  { m with stepper := { m.stepper with total_steps := 0 } }

/-- `LinearAxis_get_position_mm` (lines 229-231). -/
def LinearAxis_get_position_mm (m : LinearAxis) : ℚ :=
  (m.stepper.total_steps : ℚ) * (1 / m.steps_per_mm)

/-- `LinearAxis_set_position_mm` (lines 233-235). -/
def LinearAxis_set_position_mm (m : LinearAxis) (mm : ℚ) : LinearAxis :=
  { m with stepper := { m.stepper with total_steps := LinearAxis_dest_steps m mm } }

/-- `LinearAxis_direct_step` (lines 241-259). -/
def LinearAxis_direct_step (m : LinearAxis) : LinearAxis :=
  if m._current_move.total_step_count = 0 then m
  else
    let steppers : Stepper × Option Stepper :=
      match m.stepper2 with
      | some s2 =>
        let p := Stepper_step_two m.stepper s2
        (p.1, some p.2)
      | none => (Stepper_step m.stepper, none)
    let mv : LinearAxisMovement :=
      { m._current_move with steps_taken := m._current_move.steps_taken + 1 }
    if mv.steps_taken = mv.total_step_count then
      { m with stepper := steppers.1, stepper2 := steppers.2,
               _current_move := LinearAxisMovement.zero }
    else
      { m with stepper := steppers.1, stepper2 := steppers.2, _current_move := mv }

/-- The instantaneous velocity computed by `LinearAxis_calculate_step_interval`
(lines 274-292): kinematic `v = sqrt(2 a d)` during the ramps, the cruise
velocity during the coast phase.  `sq` is the `sqrtf` implementation. -/
def LinearAxis_inst_velocity (sq : ℚ → ℚ) (m : LinearAxis) : ℚ :=
  let distance : ℚ := (m._current_move.steps_taken : ℚ) * (1 / m.steps_per_mm)
  if m._current_move.steps_taken < m._current_move.accel_step_count then
    sq (2 * distance * m.acceleration_mm_s2)
  else if m._current_move.steps_taken <
      m._current_move.accel_step_count + m._current_move.coast_step_count then
    m.velocity_mm_s
  else
    let total_distance : ℚ := (m._current_move.total_step_count : ℚ) * (1 / m.steps_per_mm)
    sq (2 * (total_distance - distance) * m.acceleration_mm_s2)

/-- `LinearAxis_calculate_step_interval` (lines 274-306).  The interval is
`(int64_t)(s_per_step * 1e6)` (a truncating cast) clamped above at 5000. -/
def LinearAxis_calculate_step_interval (sq : ℚ → ℚ) (m : LinearAxis) : LinearAxis :=
  let inst_velocity := LinearAxis_inst_velocity sq m
  let s_per_step : ℚ :=
    if 0 < inst_velocity then
      let steps_per_s := inst_velocity / (1 / m.steps_per_mm)
      1 / steps_per_s
    else (1 : ℚ)/1000
  let step_time_us : Int := truncQ (s_per_step * 1000000)
  let clamped : Int := if 5000 < step_time_us then 5000 else step_time_us
  { m with _step_interval := clamped }

/-- `LinearAxis_timed_step` (lines 261-272); `now` is the clock value.
`absolute_time_diff_us(now, _next_step_at) > 0` means the deadline is still in
the future.  Returns the C function's boolean result and the updated axis. -/
def LinearAxis_timed_step (sq : ℚ → ℚ) (m : LinearAxis) (now : Int) : Bool × LinearAxis :=
  if 0 < m._next_step_at - now then (false, m)
  else
    let m1 := LinearAxis_direct_step m
    let m2 := LinearAxis_calculate_step_interval sq m1
    (true, { m2 with _next_step_at := now + m2._step_interval })

/-- A sequence of `LinearAxis_timed_step` calls at the given clock values. -/
def LinearAxis_run_ticks (sq : ℚ → ℚ) (m : LinearAxis) : List Int → LinearAxis
  | [] => m
  | t :: ts => LinearAxis_run_ticks sq (LinearAxis_timed_step sq m t).2 ts

/-- State of the `stallguard_seek` polling loop: the axis plus the local
`check_for_stall` flag (linear_axis.c line 36). -/
structure SeekState where
  axis : LinearAxis
  check_for_stall : Bool
deriving DecidableEq

/-- One iteration of the `while (true)` loop in `stallguard_seek` (lines 37-49):
a timed step, the arming check `steps_taken == accel_step_count`, then the exit
test `check_for_stall && Stepper_stalled(...)`.  Returns the new state and
whether the loop `break`s. -/
def stallguard_seek_body (sq : ℚ → ℚ) (st : SeekState) (now : Int) (stalledNow : Bool) :
    SeekState × Bool :=
  let m1 := (LinearAxis_timed_step sq st.axis now).2
  let armed := m1._current_move.steps_taken = m1._current_move.accel_step_count
  let m2 :=
    if armed then
      { m1 with stepper := Stepper_enable_stallguard m1.stepper m1.homing_sensitivity }
    else m1
  let check := if armed then true else st.check_for_stall
  (⟨m2, check⟩, check && stalledNow)

/-- The `while (true)` loop of `stallguard_seek`, with fuel.  `i` is the
iteration index used to sample the clock and stall oracles.  Returns `none`
when the fuel is exhausted before the loop breaks. -/
def stallguard_seek_loop (sq : ℚ → ℚ) (time : ℕ → Int) (stall : ℕ → Bool) :
    ℕ → ℕ → SeekState → Option SeekState
  | 0, _, _ => none
  | fuel + 1, i, st =>
    let r := stallguard_seek_body sq st (time i) (stall i)
    if r.2 then some r.1 else stallguard_seek_loop sq time stall fuel (i + 1) r.1

/-- The unbounded trace of the `stallguard_seek` loop: state after `n`
iterations together with whether the loop has already broken (the broken state
is absorbing). -/
def stallguard_seek_trace (sq : ℚ → ℚ) (time : ℕ → Int) (stall : ℕ → Bool)
    (st0 : SeekState) : ℕ → SeekState × Bool
  | 0 => (st0, false)
  | n + 1 =>
    let p := stallguard_seek_trace sq time stall st0 n
    if p.2 then p else stallguard_seek_body sq p.1 (time n) (stall n)

/-- `stallguard_seek` (lines 31-54): disable stallguard, start the move, poll
until a stall is seen, then stop, re-zero and disable stallguard. -/
def stallguard_seek (sq : ℚ → ℚ) (time : ℕ → Int) (stall : ℕ → Bool) (fuel : ℕ)
    (m : LinearAxis) (dist_mm : ℚ) (now : Int) : Option LinearAxis :=
  let m0 := { m with stepper := Stepper_disable_stallguard m.stepper }
  let m1 := LinearAxis_start_move m0 (LinearAxis_calculate_move m0 dist_mm) now
  match stallguard_seek_loop sq time stall fuel 0 ⟨m1, false⟩ with
  | none => none
  | some st =>
    let m2 := LinearAxis_stop st.axis
    let m3 := LinearAxis_reset_position m2
    some { m3 with stepper := Stepper_disable_stallguard m3.stepper }

/-- The `while (LinearAxis_is_moving(m)) LinearAxis_timed_step(m)` loop used by
the bounce phases (lines 79 and 129), with fuel. -/
def move_loop (sq : ℚ → ℚ) (time : ℕ → Int) :
    ℕ → ℕ → LinearAxis → Option LinearAxis
  | 0, _, m => if LinearAxis_is_moving m then none else some m
  | fuel + 1, i, m =>
    if LinearAxis_is_moving m then
      move_loop sq time fuel (i + 1) (LinearAxis_timed_step sq m (time i)).2
    else some m

/-- The common entry of both homing routines (lines 64-68 and 114-118):
substitute the homing kinematics and zero the stepper step counter so the
mechanical travel becomes the new origin. -/
def homing_entry (m : LinearAxis) : LinearAxis :=
  { m with
    velocity_mm_s := m.homing_velocity_mm_s,
    acceleration_mm_s2 := m.homing_acceleration_mm_s2,
    stepper := { m.stepper with total_steps := 0 } }

/-- `LinearAxis_sensorless_home` (lines 56-93).  Each phase has its own clock
and stall oracles and fuel; `now1`, `nowB`, `now2` are the clock values read by
the three `LinearAxis_start_move` calls. -/
def LinearAxis_sensorless_home (sq : ℚ → ℚ)
    (time1 : ℕ → Int) (stall1 : ℕ → Bool) (timeB : ℕ → Int)
    (time2 : ℕ → Int) (stall2 : ℕ → Bool)
    (fuel1 fuelB fuel2 : ℕ) (now1 nowB now2 : Int)
    (m : LinearAxis) : Option LinearAxis :=
  let old_velocity := m.velocity_mm_s
  let old_acceleration := m.acceleration_mm_s2
  let m0 := homing_entry m
  (stallguard_seek sq time1 stall1 fuel1 m0
      (m0.homing_direction * m0.homing_distance_mm) now1).bind fun m1 =>
  let m2 := LinearAxis_start_move m1
      (LinearAxis_calculate_move m1 (-(m1.homing_direction * m1.homing_bounce_mm))) nowB
  (move_loop sq timeB fuelB 0 m2).bind fun m3 =>
  let m4 := { m3 with
    velocity_mm_s := m3.homing_velocity_mm_s,
    acceleration_mm_s2 := m3.homing_acceleration_mm_s2 }
  (stallguard_seek sq time2 stall2 fuel2 m4
      (m4.homing_direction * m4.homing_bounce_mm * 2) now2).bind fun m5 =>
  some { m5 with velocity_mm_s := old_velocity, acceleration_mm_s2 := old_acceleration }

/-- The `while (gpio_get(m->endstop) != 1) LinearAxis_timed_step(m)` loop of
`endstop_seek` (line 98), with fuel; `gpio` is the per-iteration endstop pin
reading. -/
def endstop_seek_loop (sq : ℚ → ℚ) (time : ℕ → Int) (gpio : ℕ → ℕ) :
    ℕ → ℕ → LinearAxis → Option LinearAxis
  | 0, i, m => if gpio i = 1 then some m else none
  | fuel + 1, i, m =>
    if gpio i = 1 then some m
    else endstop_seek_loop sq time gpio fuel (i + 1) (LinearAxis_timed_step sq m (time i)).2

/-- `endstop_seek` (lines 95-102). -/
def endstop_seek (sq : ℚ → ℚ) (time : ℕ → Int) (gpio : ℕ → ℕ) (fuel : ℕ)
    (m : LinearAxis) (dist_mm : ℚ) (now : Int) : Option LinearAxis :=
  let m1 := LinearAxis_start_move m (LinearAxis_calculate_move m dist_mm) now
  (endstop_seek_loop sq time gpio fuel 0 m1).map fun m2 =>
    LinearAxis_reset_position (LinearAxis_stop m2)

/-- `LinearAxis_endstop_home` (lines 104-143).  The GPIO configuration calls
(`gpio_init`, `gpio_set_dir`, `gpio_pull_up`) affect only the external pin and
leave the axis state unchanged.  The re-seek runs at one fifth of the homing
velocity and half the homing acceleration (lines 136-137). -/
def LinearAxis_endstop_home (sq : ℚ → ℚ)
    (time1 : ℕ → Int) (gpio1 : ℕ → ℕ) (timeB : ℕ → Int)
    (time2 : ℕ → Int) (gpio2 : ℕ → ℕ)
    (fuel1 fuelB fuel2 : ℕ) (now1 nowB now2 : Int)
    (m : LinearAxis) : Option LinearAxis :=
  let old_velocity := m.velocity_mm_s
  let old_acceleration := m.acceleration_mm_s2
  let m0 := homing_entry m
  (endstop_seek sq time1 gpio1 fuel1 m0
      (m0.homing_direction * m0.homing_distance_mm) now1).bind fun m1 =>
  let m2 := LinearAxis_start_move m1
      (LinearAxis_calculate_move m1 (-(m1.homing_direction * m1.homing_bounce_mm))) nowB
  (move_loop sq timeB fuelB 0 m2).bind fun m3 =>
  let m4 := { m3 with
    velocity_mm_s := m3.homing_velocity_mm_s / 5,
    acceleration_mm_s2 := m3.homing_acceleration_mm_s2 / 2 }
  (endstop_seek sq time2 gpio2 fuel2 m4
      (m4.homing_direction * m4.homing_bounce_mm * 2) now2).bind fun m5 =>
  some { m5 with velocity_mm_s := old_velocity, acceleration_mm_s2 := old_acceleration }

/-! ### Concrete inputs used by the witness theorems -/

/-- A concrete stepper driver at step 0, direction +1, stallguard off. -/
def stepperW : Stepper :=
  { total_steps := 0, direction := 1, stallguard_on := false, stallguard_threshold := 0 }

/-- A concrete axis: 2 steps/mm, 100 mm/s, 1000 mm/s^2, idle. -/
def axisW : LinearAxis :=
  { name := 'x', steps_per_mm := 2, velocity_mm_s := 100, acceleration_mm_s2 := 1000,
    homing_velocity_mm_s := 2, homing_acceleration_mm_s2 := 2, homing_direction := 1,
    homing_distance_mm := 3, homing_bounce_mm := 1, homing_sensitivity := 100,
    endstop := 5, stepper := stepperW, stepper2 := none,
    _current_move := LinearAxisMovement.zero, _step_interval := 0, _next_step_at := 0 }

/-- A square-root stub used to instantiate the abstract `sqrtf` parameter in
witnesses (the claims proved hold for every square-root implementation). -/
def sqW : ℚ → ℚ := fun _ => 0

/-- A concrete axis at step 4 with a slaved second driver. -/
def axisW7 : LinearAxis :=
  { axisW with stepper := { stepperW with total_steps := 4 }, stepper2 := some stepperW }

/-- A concrete axis in the coast phase of a move, with
`10^6 / (velocity_mm_s * steps_per_mm) = 19/10`, a value whose truncation (1)
and rounding (2) differ. -/
def axisC4 : LinearAxis :=
  { axisW with
    steps_per_mm := 10000/19,
    velocity_mm_s := 1000,
    _current_move := { direction := 1, accel_step_count := 0, decel_step_count := 5,
                       coast_step_count := 5, total_step_count := 10, steps_taken := 2 } }

/-- Invariant tying the stepper's step counter to the progress of the
installed movement: the driver direction stays `d` and either the move is
still in flight (`total_step_count = tot`, `0 <= steps_taken < tot`, counter
advanced by `d * steps_taken` from `s0`) or the move has completed (the
current movement has `total_step_count = 0` and the counter has advanced by
`d * tot`). -/
def MoveInv (d tot s0 : Int) (m : LinearAxis) : Prop :=
  m.stepper.direction = d ∧
  ((m._current_move.total_step_count = tot ∧
    0 ≤ m._current_move.steps_taken ∧ m._current_move.steps_taken < tot ∧
    m.stepper.total_steps = s0 + d * m._current_move.steps_taken) ∨
   (m._current_move.total_step_count = 0 ∧
    m.stepper.total_steps = s0 + d * tot))

/-- A concrete axis with 1 step/mm, 2 mm/s, 2 mm/s^2. -/
def axisW2 : LinearAxis :=
  { axisW with steps_per_mm := 1, velocity_mm_s := 2, acceleration_mm_s2 := 2 }

/-- A concrete one-step movement (accel 0, decel 1). -/
def mvW2 : LinearAxisMovement :=
  { direction := 1, accel_step_count := 0, decel_step_count := 1,
    coast_step_count := 0, total_step_count := 1, steps_taken := 0 }

/-- Inductive invariant of the `stallguard_seek` polling loop: the in-flight
movement keeps its accel and total counts (`acc`, `tot`) with `steps_taken` in
range, the driver's stallguard flag mirrors the loop's `check_for_stall`
variable, `check_for_stall` is set only once the move has completed or
`steps_taken` has reached `acc`, and the loop can only have broken with
`check_for_stall` set. -/
def SeekInv (acc tot : Int) (p : SeekState × Bool) : Prop :=
  (p.1.axis._current_move.total_step_count = 0 ∨
   (p.1.axis._current_move.accel_step_count = acc ∧
    p.1.axis._current_move.total_step_count = tot ∧
    0 ≤ p.1.axis._current_move.steps_taken ∧
    p.1.axis._current_move.steps_taken < tot)) ∧
  p.1.axis.stepper.stallguard_on = p.1.check_for_stall ∧
  (p.1.check_for_stall = true →
    (p.1.axis._current_move.total_step_count = 0 ∨
     acc ≤ p.1.axis._current_move.steps_taken)) ∧
  (p.2 = true → p.1.check_for_stall = true)

/-- The all-false stall oracle: the driver never reports a stall. -/
def stallFalseW : ℕ → Bool := fun _ => false

/-- The all-true stall oracle: the driver reports a stall on every poll. -/
def stallTrueW : ℕ → Bool := fun _ => true

/-- A clock oracle ticking every 10000 microseconds starting at 100. -/
def timeW : ℕ → Int := fun i => 100 + 10000 * (i : Int)

/-- A concrete two-step movement with a one-step ramp (accel 1, decel 1). -/
def mvW3 : LinearAxisMovement :=
  { direction := 1, accel_step_count := 1, decel_step_count := 1,
    coast_step_count := 0, total_step_count := 2, steps_taken := 0 }

/-- The `stallguard_seek` loop state right after `start_move` of `mvW3`. -/
def seekStW : SeekState :=
  { axis := LinearAxis_start_move axisW2 mvW3 0, check_for_stall := false }

/-- The endstop oracle that reads asserted (1) on every poll. -/
def gpioOneW : ℕ → ℕ := fun _ => 1

/-- A concrete axis for the homing runs: distinct normal kinematics (7 mm/s,
9 mm/s^2), homing kinematics 2 mm/s and 2 mm/s^2, homing bounce 0. -/
def axisW9 : LinearAxis :=
  { axisW2 with velocity_mm_s := 7, acceleration_mm_s2 := 9, homing_bounce_mm := 0 }

/-! ### Rounding helper lemmas -/

theorem lroundQ_intCast (n : Int) : lroundQ ((n : Int) : ℚ) = n := by
  unfold lroundQ
  split
  · rw [Int.floor_eq_iff]
    constructor <;> linarith
  · rw [Int.ceil_eq_iff]
    constructor <;> linarith

theorem lroundQ_eq_of_eq_intCast {q : ℚ} {n : Int} (h : q = ((n : Int) : ℚ)) :
    lroundQ q = n := by rw [h, lroundQ_intCast]

theorem lroundQ_nonneg {q : ℚ} (h : 0 ≤ q) : 0 ≤ lroundQ q := by
  unfold lroundQ
  rw [if_pos h]
  exact Int.floor_nonneg.mpr (by linarith)

theorem truncQ_eq_of_eq_intCast {q : ℚ} {n : Int} (h : q = ((n : Int) : ℚ)) :
    truncQ q = n := by
  unfold truncQ
  rw [h]
  split
  · exact Int.floor_intCast n
  · exact Int.ceil_intCast n

/-! ### Profiler claims -/

theorem accel_steps_nonneg (m : LinearAxis)
    (hspm : 0 < m.steps_per_mm) (hv : 0 < m.velocity_mm_s) (ha : 0 < m.acceleration_mm_s2) :
    0 ≤ LinearAxis_accel_steps m := by
  unfold LinearAxis_accel_steps
  refine lroundQ_nonneg (le_of_lt ?_)
  exact mul_pos (mul_pos (mul_pos (by norm_num) (div_pos hv ha)) hv) hspm

/-- Claim C1: for every axis configuration with positive `steps_per_mm`,
`velocity_mm_s` and `acceleration_mm_s2` and every destination, the plan
returned by `LinearAxis_calculate_move` satisfies
`accel + coast + decel = total` with all four counts nonnegative; the accel and
decel counts are equal unless the short-move correction applied (raw coast
`≤ 0`), in which case `accel = total / 2` (integer division),
`decel = total - accel` and `coast = 0`. -/
theorem calculate_move_plan_invariant (m : LinearAxis) (dest_mm : ℚ)
    (hspm : 0 < m.steps_per_mm) (hv : 0 < m.velocity_mm_s) (ha : 0 < m.acceleration_mm_s2) :
    ∀ mv, mv = LinearAxis_calculate_move m dest_mm →
      mv.accel_step_count + mv.coast_step_count + mv.decel_step_count = mv.total_step_count ∧
      0 ≤ mv.accel_step_count ∧ 0 ≤ mv.coast_step_count ∧ 0 ≤ mv.decel_step_count ∧
      0 ≤ mv.total_step_count ∧
      (0 < mv.total_step_count - 2 * LinearAxis_accel_steps m →
        mv.accel_step_count = LinearAxis_accel_steps m ∧
        mv.decel_step_count = LinearAxis_accel_steps m ∧
        mv.coast_step_count = mv.total_step_count - 2 * LinearAxis_accel_steps m) ∧
      (mv.total_step_count - 2 * LinearAxis_accel_steps m ≤ 0 →
        mv.accel_step_count = mv.total_step_count / 2 ∧
        mv.decel_step_count = mv.total_step_count - mv.total_step_count / 2 ∧
        mv.coast_step_count = 0) := by
  intro mv hmv
  have hacc : 0 ≤ LinearAxis_accel_steps m := accel_steps_nonneg m hspm hv ha
  have habs : 0 ≤ |LinearAxis_dest_steps m dest_mm - m.stepper.total_steps| := abs_nonneg _
  subst hmv
  simp only [LinearAxis_calculate_move]
  split <;> dsimp only <;> omega

theorem calculate_move_plan_invariant_witness :
    ((0:ℚ) < axisW.steps_per_mm ∧ (0:ℚ) < axisW.velocity_mm_s ∧
      (0:ℚ) < axisW.acceleration_mm_s2) ∧
    LinearAxis_calculate_move axisW (11/2) = ⟨1, 5, 6, 0, 11, 0⟩ ∧
    (⟨1, 5, 6, 0, 11, 0⟩ : LinearAxisMovement).accel_step_count +
      (⟨1, 5, 6, 0, 11, 0⟩ : LinearAxisMovement).coast_step_count +
      (⟨1, 5, 6, 0, 11, 0⟩ : LinearAxisMovement).decel_step_count =
      (⟨1, 5, 6, 0, 11, 0⟩ : LinearAxisMovement).total_step_count := by
  have h1 : (0:ℚ) < axisW.steps_per_mm := by norm_num [axisW]
  have h2 : (0:ℚ) < axisW.velocity_mm_s := by norm_num [axisW]
  have h3 : (0:ℚ) < axisW.acceleration_mm_s2 := by norm_num [axisW]
  have hd : LinearAxis_dest_steps axisW (11/2) = 11 := by
    unfold LinearAxis_dest_steps
    rw [show ((11:ℚ)/2 * axisW.steps_per_mm) = ((11:Int):ℚ) by norm_num [axisW]]
    rw [Int.ceil_intCast]
    exact lroundQ_intCast 11
  have hr : LinearAxis_accel_steps axisW = 10 := by
    unfold LinearAxis_accel_steps
    exact lroundQ_eq_of_eq_intCast (by norm_num [axisW])
  have he : LinearAxis_calculate_move axisW (11/2) = ⟨1, 5, 6, 0, 11, 0⟩ := by
    have hts : axisW.stepper.total_steps = 0 := rfl
    simp only [LinearAxis_calculate_move, hd, hr, hts]
    decide
  exact ⟨⟨h1, h2, h3⟩, he,
    (calculate_move_plan_invariant axisW (11/2) h1 h2 h3 _ he.symm).1⟩

theorem calculate_move_direction (m : LinearAxis) (dest_mm : ℚ) :
    (LinearAxis_calculate_move m dest_mm).direction =
      if LinearAxis_dest_steps m dest_mm - m.stepper.total_steps < 0 then -1 else 1 := by
  simp only [LinearAxis_calculate_move]
  split <;> rfl

/-- Claim C7: `LinearAxis_calculate_move` sets `direction = sign(dest_steps -
total_steps)` with `sign(0) = +1`, so the direction is always -1 or +1; a
negative destination from a positive current position yields direction -1, and
`LinearAxis_start_move` latches the direction onto the primary driver and, when
present, the secondary driver. -/
theorem calculate_move_sign_convention (m : LinearAxis) (dest_mm : ℚ) :
    ∀ mv, mv = LinearAxis_calculate_move m dest_mm →
      (mv.direction = -1 ∨ mv.direction = 1) ∧
      (LinearAxis_dest_steps m dest_mm - m.stepper.total_steps < 0 → mv.direction = -1) ∧
      (0 ≤ LinearAxis_dest_steps m dest_mm - m.stepper.total_steps → mv.direction = 1) ∧
      (0 < m.steps_per_mm → dest_mm < 0 → 0 < m.stepper.total_steps → mv.direction = -1) ∧
      (∀ now, (LinearAxis_start_move m mv now).stepper.direction = mv.direction ∧
        ∀ s2, m.stepper2 = some s2 →
          (LinearAxis_start_move m mv now).stepper2 =
            some { s2 with direction := mv.direction }) := by
  intro mv hmv
  have hdir : mv.direction =
      if LinearAxis_dest_steps m dest_mm - m.stepper.total_steps < 0 then -1 else 1 := by
    rw [hmv]; exact calculate_move_direction m dest_mm
  refine ⟨?_, ?_, ?_, ?_, ?_⟩
  · rw [hdir]; split
    · exact Or.inl rfl
    · exact Or.inr rfl
  · intro h; rw [hdir, if_pos h]
  · intro h; rw [hdir, if_neg (by omega)]
  · intro hspm hneg hpos
    have hle : LinearAxis_dest_steps m dest_mm ≤ 0 := by
      unfold LinearAxis_dest_steps
      rw [lroundQ_intCast]
      have hmul : dest_mm * m.steps_per_mm ≤ 0 :=
        le_of_lt (mul_neg_of_neg_of_pos hneg hspm)
      exact Int.ceil_le.mpr (by exact_mod_cast hmul)
    rw [hdir, if_pos (by omega)]
  · intro now
    refine ⟨rfl, ?_⟩
    intro s2 hs2
    simp [LinearAxis_start_move, hs2]

theorem calculate_move_sign_convention_witness :
    (0:ℚ) < axisW7.steps_per_mm ∧ (-1:ℚ) < 0 ∧ 0 < axisW7.stepper.total_steps ∧
    (LinearAxis_calculate_move axisW7 (-1)).direction = -1 ∧
    (LinearAxis_start_move axisW7 (LinearAxis_calculate_move axisW7 (-1)) 0).stepper.direction
      = -1 ∧
    (LinearAxis_start_move axisW7 (LinearAxis_calculate_move axisW7 (-1)) 0).stepper2 =
      some { stepperW with direction := -1 } := by
  have h := calculate_move_sign_convention axisW7 (-1) _ rfl
  have hspm : (0:ℚ) < axisW7.steps_per_mm := by norm_num [axisW7, axisW]
  have hpos : (0:Int) < axisW7.stepper.total_steps := by decide
  have hdir : (LinearAxis_calculate_move axisW7 (-1)).direction = -1 :=
    h.2.2.2.1 hspm (by norm_num) hpos
  refine ⟨hspm, by norm_num, hpos, hdir, ?_, ?_⟩
  · rw [(h.2.2.2.2 0).1, hdir]
  · have h2 := (h.2.2.2.2 0).2 stepperW rfl
    rw [hdir] at h2
    exact h2

/-- Claim C8: round-trip of the position setter and getter: after
`set_position_mm(x)`, `get_position_mm()` returns
`lround(ceil(x * steps_per_mm)) / steps_per_mm`. -/
theorem set_get_position_roundtrip (m : LinearAxis) (x : ℚ) (_hspm : 0 < m.steps_per_mm) :
    LinearAxis_get_position_mm (LinearAxis_set_position_mm m x) =
      ((lroundQ ((⌈x * m.steps_per_mm⌉ : Int) : ℚ) : Int) : ℚ) / m.steps_per_mm := by
  unfold LinearAxis_get_position_mm LinearAxis_set_position_mm LinearAxis_dest_steps
  rw [mul_one_div]

theorem set_get_position_roundtrip_witness :
    (0:ℚ) < axisW.steps_per_mm ∧
    LinearAxis_get_position_mm (LinearAxis_set_position_mm axisW (3/2)) =
      ((lroundQ ((⌈(3/2 : ℚ) * axisW.steps_per_mm⌉ : Int) : ℚ) : Int) : ℚ) / axisW.steps_per_mm ∧
    LinearAxis_get_position_mm (LinearAxis_set_position_mm axisW (3/2)) = 3/2 := by
  have hspm : (0:ℚ) < axisW.steps_per_mm := by norm_num [axisW]
  have h := set_get_position_roundtrip axisW (3/2) hspm
  refine ⟨hspm, h, ?_⟩
  rw [h]
  rw [show (⌈(3/2 : ℚ) * axisW.steps_per_mm⌉ : Int) = 3 by
    rw [show ((3:ℚ)/2 * axisW.steps_per_mm) = ((3:Int):ℚ) by norm_num [axisW]]
    exact Int.ceil_intCast 3]
  rw [lroundQ_intCast]
  norm_num [axisW]

/-! ### Stepper claims -/

/-- Claim C6: a movement with `total_step_count == 0` is a no-op, not an error:
after `start_move` installs it the axis is idle, and `direct_step` returns
without pulsing either driver, leaving `steps_taken`, the steppers and the
whole axis state unchanged. -/
theorem zero_length_move_noop (m : LinearAxis) (mv : LinearAxisMovement) (now : Int)
    (h0 : mv.total_step_count = 0) (hs : mv.steps_taken = 0) :
    ∀ m1, m1 = LinearAxis_start_move m mv now →
      LinearAxis_is_moving m1 = false ∧
      LinearAxis_direct_step m1 = m1 ∧
      (LinearAxis_direct_step m1)._current_move.steps_taken = 0 ∧
      (LinearAxis_direct_step m1).stepper.total_steps = m.stepper.total_steps := by
  intro m1 hm1
  have hmv : m1._current_move = mv := by rw [hm1]; rfl
  have hid : LinearAxis_direct_step m1 = m1 := by
    unfold LinearAxis_direct_step
    rw [hmv, h0]
    simp
  refine ⟨?_, hid, ?_, ?_⟩
  · unfold LinearAxis_is_moving
    rw [hmv, h0]
    simp
  · rw [hid, hmv, hs]
  · rw [hid, hm1]; rfl

theorem zero_length_move_noop_witness :
    LinearAxisMovement.zero.total_step_count = 0 ∧
    LinearAxisMovement.zero.steps_taken = 0 ∧
    LinearAxis_is_moving (LinearAxis_start_move axisW LinearAxisMovement.zero 0) = false ∧
    LinearAxis_direct_step (LinearAxis_start_move axisW LinearAxisMovement.zero 0) =
      LinearAxis_start_move axisW LinearAxisMovement.zero 0 := by
  have h := zero_length_move_noop axisW LinearAxisMovement.zero 0 (by decide) (by decide) _ rfl
  exact ⟨by decide, by decide, h.1, h.2.1⟩

/-- Claim C10: `LinearAxis_timed_step` returns true whenever the current time
has reached `_next_step_at`, even when the axis is idle; in the idle case it
emits no pulse (both steppers and the current movement are unchanged) but
still recomputes the interval and re-arms `_next_step_at`, so a true return
value does not imply that a step pulse was emitted. -/
theorem timed_step_true_without_pulse (sq : ℚ → ℚ) (m : LinearAxis) (now : Int)
    (hdue : m._next_step_at - now ≤ 0) :
    (LinearAxis_timed_step sq m now).1 = true ∧
    (m._current_move.total_step_count = 0 →
      (LinearAxis_timed_step sq m now).2.stepper = m.stepper ∧
      (LinearAxis_timed_step sq m now).2.stepper2 = m.stepper2 ∧
      (LinearAxis_timed_step sq m now).2._current_move = m._current_move ∧
      (LinearAxis_timed_step sq m now).2._step_interval =
        (LinearAxis_calculate_step_interval sq m)._step_interval ∧
      (LinearAxis_timed_step sq m now).2._next_step_at =
        now + (LinearAxis_timed_step sq m now).2._step_interval) := by
  have hcond : ¬ 0 < m._next_step_at - now := by omega
  unfold LinearAxis_timed_step
  rw [if_neg hcond]
  refine ⟨rfl, ?_⟩
  intro h0
  have hid : LinearAxis_direct_step m = m := by
    unfold LinearAxis_direct_step
    rw [h0]
    simp
  dsimp only
  rw [hid]
  exact ⟨rfl, rfl, rfl, rfl, rfl⟩

theorem timed_step_true_without_pulse_witness :
    axisW._next_step_at - 0 ≤ 0 ∧
    axisW._current_move.total_step_count = 0 ∧
    (LinearAxis_timed_step sqW axisW 0).1 = true ∧
    (LinearAxis_timed_step sqW axisW 0).2.stepper = axisW.stepper ∧
    (LinearAxis_timed_step sqW axisW 0).2._next_step_at =
      0 + (LinearAxis_timed_step sqW axisW 0).2._step_interval := by
  have h := timed_step_true_without_pulse sqW axisW 0 (by decide)
  have h2 := h.2 (by decide)
  exact ⟨by decide, by decide, h.1, h2.1, h2.2.2.2.2⟩

theorem truncQ_eval_nonneg {q : ℚ} {n : Int} (hn : 0 ≤ n) (h0 : (n:ℚ) ≤ q)
    (h1 : q < (n:ℚ) + 1) : truncQ q = n := by
  unfold truncQ
  rw [if_pos (le_trans (by exact_mod_cast hn) h0)]
  rw [Int.floor_eq_iff]
  exact ⟨h0, by exact_mod_cast h1⟩

theorem lroundQ_eval_nonneg {q : ℚ} {n : Int} (hq : 0 ≤ q) (h0 : (n:ℚ) ≤ q + 1/2)
    (h1 : q + 1/2 < (n:ℚ) + 1) : lroundQ q = n := by
  unfold lroundQ
  rw [if_pos hq, Int.floor_eq_iff]
  exact ⟨h0, by exact_mod_cast h1⟩

/-- The clamp on line 304 bounds the computed step interval by 5000
microseconds unconditionally. -/
theorem calculate_step_interval_le (sq : ℚ → ℚ) (m : LinearAxis) :
    (LinearAxis_calculate_step_interval sq m)._step_interval ≤ 5000 := by
  unfold LinearAxis_calculate_step_interval
  dsimp only
  split <;> omega

theorem axisC4_inst_velocity : LinearAxis_inst_velocity sqW axisC4 = 1000 := by
  simp only [LinearAxis_inst_velocity]
  rw [if_neg (by decide), if_pos (by decide)]
  rfl

/-- Claim C4 counterexample: at a concrete axis state (coast phase, velocity
1000 mm/s, 10000/19 steps/mm) the computed `_step_interval` is 1, the
truncation of 10^6/(v * steps_per_mm) = 19/10, while rounding that quantity
gives 2: `LinearAxis_calculate_step_interval` truncates, it does not round. -/
theorem step_interval_not_rounded_counterexample :
    (LinearAxis_calculate_step_interval sqW axisC4)._step_interval = 1 ∧
    lroundQ (1000000 / (axisC4.velocity_mm_s * axisC4.steps_per_mm)) = 2 ∧
    (LinearAxis_calculate_step_interval sqW axisC4)._step_interval ≠
      lroundQ (1000000 / (axisC4.velocity_mm_s * axisC4.steps_per_mm)) := by
  have harg : (1 / (LinearAxis_inst_velocity sqW axisC4 / (1 / axisC4.steps_per_mm)) *
      1000000 : ℚ) = 19/10 := by
    rw [axisC4_inst_velocity]
    norm_num [axisC4, axisW]
  have h1 : (LinearAxis_calculate_step_interval sqW axisC4)._step_interval = 1 := by
    simp only [LinearAxis_calculate_step_interval]
    rw [if_pos (show (0:ℚ) < LinearAxis_inst_velocity sqW axisC4 by
      rw [axisC4_inst_velocity]; norm_num)]
    rw [harg, truncQ_eval_nonneg (q := 19/10) (n := 1) (by norm_num) (by norm_num) (by norm_num)]
    decide
  have h2 : lroundQ (1000000 / (axisC4.velocity_mm_s * axisC4.steps_per_mm)) = 2 := by
    rw [show (1000000 / (axisC4.velocity_mm_s * axisC4.steps_per_mm) : ℚ) = 19/10 by
      norm_num [axisC4, axisW]]
    exact lroundQ_eval_nonneg (by norm_num) (by norm_num) (by norm_num)
  exact ⟨h1, h2, by omega⟩

/-- Claim C4 amended: for every axis with positive `steps_per_mm`,
`LinearAxis_calculate_step_interval` never divides by zero (the division is
guarded by `inst_velocity > 0`): it sets `_step_interval` to 1000 us when the
instantaneous velocity is not positive (in particular when it is 0), and to
the truncation toward zero (not the rounding) of `10^6 / (v * steps_per_mm)`
clamped at 5000 otherwise; the resulting interval is always at most 5000 us,
and for every plan the interval in force after the first `timed_step`
following `start_move` is at most 5000 us. -/
theorem step_interval_properties (sq : ℚ → ℚ) (m : LinearAxis)
    (hspm : 0 < m.steps_per_mm) :
    ∀ m1, m1 = LinearAxis_calculate_step_interval sq m →
      (¬ 0 < LinearAxis_inst_velocity sq m → m1._step_interval = 1000) ∧
      (0 < LinearAxis_inst_velocity sq m →
        m1._step_interval =
          if 5000 < truncQ (1000000 / (LinearAxis_inst_velocity sq m * m.steps_per_mm))
          then 5000
          else truncQ (1000000 / (LinearAxis_inst_velocity sq m * m.steps_per_mm))) ∧
      m1._step_interval ≤ 5000 ∧
      (∀ mv now t, 0 < mv.total_step_count →
        (LinearAxis_timed_step sq (LinearAxis_start_move m mv now) t).2._step_interval
          ≤ 5000) := by
  intro m1 hm1
  subst hm1
  refine ⟨?_, ?_, calculate_step_interval_le sq m, ?_⟩
  · intro hv
    simp only [LinearAxis_calculate_step_interval]
    rw [if_neg hv]
    rw [truncQ_eq_of_eq_intCast (n := 1000) (by norm_num)]
    decide
  · intro hv
    have hv' : LinearAxis_inst_velocity sq m ≠ 0 := ne_of_gt hv
    have hspm' : m.steps_per_mm ≠ 0 := ne_of_gt hspm
    have harg : (1 / (LinearAxis_inst_velocity sq m / (1 / m.steps_per_mm)) *
        1000000 : ℚ) = 1000000 / (LinearAxis_inst_velocity sq m * m.steps_per_mm) := by
      field_simp
    simp only [LinearAxis_calculate_step_interval]
    rw [if_pos hv, harg]
  · intro mv now t _
    unfold LinearAxis_timed_step
    split
    · show (100:Int) ≤ 5000
      norm_num
    · exact calculate_step_interval_le sq _

theorem step_interval_properties_witness :
    (0:ℚ) < axisC4.steps_per_mm ∧
    (0:ℚ) < LinearAxis_inst_velocity sqW axisC4 ∧
    (LinearAxis_calculate_step_interval sqW axisC4)._step_interval =
      (if 5000 < truncQ (1000000 /
          (LinearAxis_inst_velocity sqW axisC4 * axisC4.steps_per_mm))
       then 5000
       else truncQ (1000000 /
          (LinearAxis_inst_velocity sqW axisC4 * axisC4.steps_per_mm))) ∧
    (LinearAxis_calculate_step_interval sqW axisC4)._step_interval ≤ 5000 := by
  have hspm : (0:ℚ) < axisC4.steps_per_mm := by norm_num [axisC4, axisW]
  have h := step_interval_properties sqW axisC4 hspm _ rfl
  have hv : (0:ℚ) < LinearAxis_inst_velocity sqW axisC4 := by
    rw [axisC4_inst_velocity]; norm_num
  exact ⟨hspm, hv, h.2.1 hv, h.2.2.1⟩

theorem direct_step_MoveInv {d tot s0 : Int} {m : LinearAxis} (h : MoveInv d tot s0 m) :
    MoveInv d tot s0 (LinearAxis_direct_step m) := by
  obtain ⟨hd, hcase⟩ := h
  rcases hcase with ⟨htot, hk0, hklt, hsteps⟩ | ⟨hz, hsteps⟩
  · have h0 : ¬ m._current_move.total_step_count = 0 := by omega
    have key : ∀ st2 : Option Stepper,
        MoveInv d tot s0
          (if m._current_move.steps_taken + 1 = m._current_move.total_step_count then
            { m with stepper := Stepper_step m.stepper, stepper2 := st2,
                     _current_move := LinearAxisMovement.zero }
          else
            { m with stepper := Stepper_step m.stepper, stepper2 := st2,
                     _current_move :=
                       { m._current_move with
                          steps_taken := m._current_move.steps_taken + 1 } }) := by
      intro st2
      by_cases hfin : m._current_move.steps_taken + 1 = m._current_move.total_step_count
      · rw [if_pos hfin]
        refine ⟨hd, Or.inr ⟨rfl, ?_⟩⟩
        show m.stepper.total_steps + m.stepper.direction = s0 + d * tot
        have htk : tot = m._current_move.steps_taken + 1 := by omega
        rw [hsteps, hd, htk]; ring
      · rw [if_neg hfin]
        refine ⟨hd, Or.inl ⟨htot, ?_, ?_, ?_⟩⟩
        · show 0 ≤ m._current_move.steps_taken + 1
          omega
        · show m._current_move.steps_taken + 1 < tot
          omega
        · show m.stepper.total_steps + m.stepper.direction =
            s0 + d * (m._current_move.steps_taken + 1)
          rw [hsteps, hd]; ring
    simp only [LinearAxis_direct_step]
    rw [if_neg h0]
    rcases hs2 : m.stepper2 with _ | s2
    · exact key none
    · exact key (some (Stepper_step s2))
  · simp only [LinearAxis_direct_step]
    rw [if_pos hz]
    exact ⟨hd, Or.inr ⟨hz, hsteps⟩⟩

theorem timed_step_MoveInv {d tot s0 : Int} (sq : ℚ → ℚ) (now : Int) {m : LinearAxis}
    (h : MoveInv d tot s0 m) : MoveInv d tot s0 (LinearAxis_timed_step sq m now).2 := by
  unfold LinearAxis_timed_step
  split
  · exact h
  · exact direct_step_MoveInv h

theorem run_ticks_MoveInv {d tot s0 : Int} (sq : ℚ → ℚ) (ts : List Int) {m : LinearAxis}
    (h : MoveInv d tot s0 m) : MoveInv d tot s0 (LinearAxis_run_ticks sq m ts) := by
  induction ts generalizing m with
  | nil => exact h
  | cons t ts ih => exact ih (timed_step_MoveInv sq t h)

theorem start_move_MoveInv (m : LinearAxis) (mv : LinearAxisMovement) (now : Int)
    (hs : mv.steps_taken = 0) (ht : 0 ≤ mv.total_step_count) :
    MoveInv mv.direction mv.total_step_count m.stepper.total_steps
      (LinearAxis_start_move m mv now) := by
  refine ⟨rfl, ?_⟩
  by_cases h0 : mv.total_step_count = 0
  · right
    refine ⟨h0, ?_⟩
    show m.stepper.total_steps = m.stepper.total_steps + mv.direction * mv.total_step_count
    rw [h0]; ring
  · left
    refine ⟨rfl, ?_, ?_, ?_⟩
    · show 0 ≤ mv.steps_taken
      omega
    · show mv.steps_taken < mv.total_step_count
      omega
    · show m.stepper.total_steps = m.stepper.total_steps + mv.direction * mv.steps_taken
      rw [hs]; ring

/-- Claim C2: for every move run to completion by repeated `LinearAxis_timed_step`
calls -- with a driver whose step operation advances `total_steps` by exactly
`direction` per pulse, as the modelled driver contract states -- the net change
of the stepper's `total_steps` equals `direction * total_step_count` of the
installed movement. -/
theorem completed_move_net_steps (sq : ℚ → ℚ) (m : LinearAxis) (mv : LinearAxisMovement)
    (now : Int) (ts : List Int) (hs : mv.steps_taken = 0) (ht : 0 ≤ mv.total_step_count) :
    ∀ mf, mf = LinearAxis_run_ticks sq (LinearAxis_start_move m mv now) ts →
      LinearAxis_is_moving mf = false →
      mf.stepper.total_steps - m.stepper.total_steps =
        mv.direction * mv.total_step_count := by
  intro mf hmf hidle
  have hinv := run_ticks_MoveInv sq ts (start_move_MoveInv m mv now hs ht)
  rw [← hmf] at hinv
  obtain ⟨hd, hcase⟩ := hinv
  rcases hcase with ⟨htot, hk0, hklt, hsteps⟩ | ⟨hz, hsteps⟩
  · exfalso
    simp only [LinearAxis_is_moving, decide_eq_false_iff_not, not_lt] at hidle
    omega
  · rw [hsteps]; ring

theorem completed_move_net_steps_witness :
    mvW2.steps_taken = 0 ∧ 0 ≤ mvW2.total_step_count ∧
    LinearAxis_is_moving
      (LinearAxis_run_ticks sqW (LinearAxis_start_move axisW2 mvW2 0) [1000000]) = false ∧
    (LinearAxis_run_ticks sqW (LinearAxis_start_move axisW2 mvW2 0)
        [1000000]).stepper.total_steps - axisW2.stepper.total_steps =
      mvW2.direction * mvW2.total_step_count := by
  have ht1000 : truncQ ((1:ℚ)/1000 * 1000000) = 1000 :=
    truncQ_eq_of_eq_intCast (by norm_num)
  have hrun : LinearAxis_run_ticks sqW (LinearAxis_start_move axisW2 mvW2 0) [1000000] =
      { axisW2 with
        stepper := { total_steps := 1, direction := 1, stallguard_on := false,
                     stallguard_threshold := 0 },
        _current_move := LinearAxisMovement.zero,
        _step_interval := 1000, _next_step_at := 1001000 } := by
    have ht1000b : truncQ (1000:ℚ) = 1000 := truncQ_eq_of_eq_intCast (by norm_num)
    norm_num [LinearAxis_run_ticks, LinearAxis_timed_step, LinearAxis_start_move,
      LinearAxis_direct_step, LinearAxis_calculate_step_interval, LinearAxis_inst_velocity,
      Stepper_step, Stepper_step_two, sqW, mvW2, axisW2, axisW, stepperW,
      LinearAxisMovement.zero, ht1000, ht1000b]
  have hidle : LinearAxis_is_moving
      (LinearAxis_run_ticks sqW (LinearAxis_start_move axisW2 mvW2 0) [1000000]) = false := by
    rw [hrun]
    decide
  exact ⟨by decide, by decide, hidle,
    completed_move_net_steps sqW axisW2 mvW2 0 [1000000] (by decide) (by decide) _ rfl hidle⟩

/-! ### Shape lemmas for the step loop -/

theorem direct_step_shape (m : LinearAxis) :
    (m._current_move.total_step_count = 0 ∧ LinearAxis_direct_step m = m) ∨
    (m._current_move.total_step_count ≠ 0 ∧
      (LinearAxis_direct_step m).stepper = Stepper_step m.stepper ∧
      ((m._current_move.steps_taken + 1 = m._current_move.total_step_count ∧
        (LinearAxis_direct_step m)._current_move = LinearAxisMovement.zero) ∨
       (m._current_move.steps_taken + 1 ≠ m._current_move.total_step_count ∧
        (LinearAxis_direct_step m)._current_move =
          { m._current_move with steps_taken := m._current_move.steps_taken + 1 }))) := by
  by_cases h0 : m._current_move.total_step_count = 0
  · left
    refine ⟨h0, ?_⟩
    unfold LinearAxis_direct_step
    rw [if_pos h0]
  · right
    refine ⟨h0, ?_⟩
    simp only [LinearAxis_direct_step]
    rw [if_neg h0]
    rcases hs2 : m.stepper2 with _ | s2 <;>
      by_cases hfin : m._current_move.steps_taken + 1 = m._current_move.total_step_count
    · rw [if_pos hfin]; exact ⟨rfl, Or.inl ⟨hfin, rfl⟩⟩
    · rw [if_neg hfin]; exact ⟨rfl, Or.inr ⟨hfin, rfl⟩⟩
    · rw [if_pos hfin]; exact ⟨rfl, Or.inl ⟨hfin, rfl⟩⟩
    · rw [if_neg hfin]; exact ⟨rfl, Or.inr ⟨hfin, rfl⟩⟩

theorem timed_step_shape (sq : ℚ → ℚ) (m : LinearAxis) (now : Int) :
    (LinearAxis_timed_step sq m now).2.stepper.stallguard_on =
      m.stepper.stallguard_on ∧
    ((LinearAxis_timed_step sq m now).2._current_move = m._current_move ∨
     (m._current_move.total_step_count ≠ 0 ∧
      m._current_move.steps_taken + 1 = m._current_move.total_step_count ∧
      (LinearAxis_timed_step sq m now).2._current_move = LinearAxisMovement.zero) ∨
     (m._current_move.total_step_count ≠ 0 ∧
      m._current_move.steps_taken + 1 ≠ m._current_move.total_step_count ∧
      (LinearAxis_timed_step sq m now).2._current_move =
        { m._current_move with steps_taken := m._current_move.steps_taken + 1 })) := by
  unfold LinearAxis_timed_step
  split
  · exact ⟨rfl, Or.inl rfl⟩
  · rcases direct_step_shape m with ⟨h0, heq⟩ | ⟨h0, hst, hmv⟩
    · constructor
      · show (LinearAxis_direct_step m).stepper.stallguard_on = m.stepper.stallguard_on
        rw [heq]
      · left
        show (LinearAxis_direct_step m)._current_move = m._current_move
        rw [heq]
    · constructor
      · show (LinearAxis_direct_step m).stepper.stallguard_on = m.stepper.stallguard_on
        rw [hst]
        rfl
      · rcases hmv with ⟨hfin, hz⟩ | ⟨hfin, hinc⟩
        · refine Or.inr (Or.inl ⟨h0, hfin, ?_⟩)
          show (LinearAxis_direct_step m)._current_move = LinearAxisMovement.zero
          rw [hz]
        · refine Or.inr (Or.inr ⟨h0, hfin, ?_⟩)
          show (LinearAxis_direct_step m)._current_move = _
          rw [hinc]

theorem timed_step_due_shape (sq : ℚ → ℚ) (m : LinearAxis) (now : Int)
    (hdue : ¬ 0 < m._next_step_at - now) :
    (LinearAxis_timed_step sq m now).2._current_move =
      (LinearAxis_direct_step m)._current_move ∧
    (LinearAxis_timed_step sq m now).2._next_step_at =
      now + (LinearAxis_calculate_step_interval sq
        (LinearAxis_direct_step m))._step_interval ∧
    (LinearAxis_timed_step sq m now).2.stepper = (LinearAxis_direct_step m).stepper := by
  unfold LinearAxis_timed_step
  rw [if_neg hdue]
  exact ⟨rfl, rfl, rfl⟩

theorem calculate_move_steps_taken (m : LinearAxis) (dest_mm : ℚ) :
    (LinearAxis_calculate_move m dest_mm).steps_taken = 0 := by
  simp only [LinearAxis_calculate_move]
  split <;> rfl

theorem calculate_move_total (m : LinearAxis) (dest_mm : ℚ) :
    (LinearAxis_calculate_move m dest_mm).total_step_count =
      |LinearAxis_dest_steps m dest_mm - m.stepper.total_steps| := by
  simp only [LinearAxis_calculate_move]
  split <;> rfl

theorem seek_body_SeekInv {acc tot : Int} (sq : ℚ → ℚ) (st : SeekState) (now : Int)
    (stalledNow : Bool)
    (hmv : st.axis._current_move.total_step_count = 0 ∨
      (st.axis._current_move.accel_step_count = acc ∧
       st.axis._current_move.total_step_count = tot ∧
       0 ≤ st.axis._current_move.steps_taken ∧
       st.axis._current_move.steps_taken < tot))
    (hsg : st.axis.stepper.stallguard_on = st.check_for_stall)
    (hcheck : st.check_for_stall = true →
      (st.axis._current_move.total_step_count = 0 ∨
       acc ≤ st.axis._current_move.steps_taken)) :
    SeekInv acc tot (stallguard_seek_body sq st now stalledNow) := by
  obtain ⟨hsgp, hmv1⟩ := timed_step_shape sq st.axis now
  simp only [stallguard_seek_body, SeekInv]
  by_cases harm : (LinearAxis_timed_step sq st.axis now).2._current_move.steps_taken =
      (LinearAxis_timed_step sq st.axis now).2._current_move.accel_step_count
  · rw [if_pos harm, if_pos harm]
    refine ⟨?_, rfl, ?_, fun _ => rfl⟩
    · rcases hmv1 with hA | ⟨h0, hfin, hB⟩ | ⟨h0, hfin, hC⟩
      · rw [hA]
        exact hmv
      · rw [hB]
        exact Or.inl rfl
      · rw [hC]
        dsimp only
        rcases hmv with h | ⟨ha, ht, hk0, hklt⟩
        · exact absurd h h0
        · exact Or.inr ⟨ha, ht, by omega, by omega⟩
    · intro _
      rcases hmv1 with hA | ⟨h0, hfin, hB⟩ | ⟨h0, hfin, hC⟩
      · rw [hA] at harm ⊢
        rcases hmv with h | ⟨ha, ht, hk0, hklt⟩
        · exact Or.inl h
        · rw [ha] at harm
          exact Or.inr (le_of_eq harm.symm)
      · rw [hB]
        exact Or.inl rfl
      · rw [hC] at harm ⊢
        dsimp only at harm ⊢
        rcases hmv with h | ⟨ha, ht, hk0, hklt⟩
        · exact absurd h h0
        · rw [ha] at harm
          exact Or.inr (by omega)
  · rw [if_neg harm, if_neg harm]
    refine ⟨?_, ?_, ?_, ?_⟩
    · rcases hmv1 with hA | ⟨h0, hfin, hB⟩ | ⟨h0, hfin, hC⟩
      · rw [hA]
        exact hmv
      · rw [hB]
        exact Or.inl rfl
      · rw [hC]
        dsimp only
        rcases hmv with h | ⟨ha, ht, hk0, hklt⟩
        · exact absurd h h0
        · exact Or.inr ⟨ha, ht, by omega, by omega⟩
    · rw [hsgp, hsg]
    · intro hc
      have hstc := hcheck hc
      rcases hmv1 with hA | ⟨h0, hfin, hB⟩ | ⟨h0, hfin, hC⟩
      · rw [hA]
        exact hstc
      · rw [hB]
        exact Or.inl rfl
      · rw [hC]
        dsimp only
        rcases hstc with h | h
        · exact absurd h h0
        · exact Or.inr (by omega)
    · intro hb
      cases hc : st.check_for_stall
      · rw [hc] at hb
        simp at hb
      · rfl

theorem seek_trace_SeekInv {acc tot : Int} (sq : ℚ → ℚ) (time : ℕ → Int)
    (stall : ℕ → Bool) (st0 : SeekState)
    (h1 : st0.axis._current_move.total_step_count = 0 ∨
      (st0.axis._current_move.accel_step_count = acc ∧
       st0.axis._current_move.total_step_count = tot ∧
       0 ≤ st0.axis._current_move.steps_taken ∧
       st0.axis._current_move.steps_taken < tot))
    (h2 : st0.axis.stepper.stallguard_on = st0.check_for_stall)
    (h3 : st0.check_for_stall = true →
      (st0.axis._current_move.total_step_count = 0 ∨
       acc ≤ st0.axis._current_move.steps_taken)) :
    ∀ n, SeekInv acc tot (stallguard_seek_trace sq time stall st0 n) := by
  intro n
  induction n with
  | zero => exact ⟨h1, h2, h3, fun h => Bool.noConfusion h⟩
  | succ n ih =>
    unfold stallguard_seek_trace
    dsimp only
    split
    · exact ih
    · exact seek_body_SeekInv sq _ (time n) (stall n) ih.1 ih.2.1 ih.2.2.1

/-- Claim C5: during the sensorless homing seek loop, stall detection is never
armed while `steps_taken < accel_step_count` of the in-flight move, and the
loop never exits on the stall flag before `steps_taken` has reached
`accel_step_count`: the stallguard flag is on only once the move has completed
or `steps_taken >= accel_step_count`, and it is switched on at exactly the
loop checks where `steps_taken == accel_step_count` holds after the tick. -/
theorem stallguard_armed_only_after_ramp (sq : ℚ → ℚ) (time : ℕ → Int)
    (stall : ℕ → Bool) (acc tot : Int) (st0 : SeekState)
    (hcf : st0.check_for_stall = false)
    (hsg0 : st0.axis.stepper.stallguard_on = false)
    (hacc : st0.axis._current_move.accel_step_count = acc)
    (htot : st0.axis._current_move.total_step_count = tot)
    (hk : st0.axis._current_move.steps_taken = 0)
    (htot0 : 0 ≤ tot) :
    ∀ n,
      ((stallguard_seek_trace sq time stall st0 n).1.axis._current_move.total_step_count ≠ 0 →
        (stallguard_seek_trace sq time stall st0 n).1.axis._current_move.steps_taken < acc →
        (stallguard_seek_trace sq time stall st0 n).1.axis.stepper.stallguard_on = false ∧
        (stallguard_seek_trace sq time stall st0 n).2 = false) ∧
      ((stallguard_seek_trace sq time stall st0 n).1.axis.stepper.stallguard_on = true →
        (stallguard_seek_trace sq time stall st0 n).1.axis._current_move.total_step_count
          = 0 ∨
        acc ≤ (stallguard_seek_trace sq time stall st0 n).1.axis._current_move.steps_taken) ∧
      ((stallguard_seek_trace sq time stall st0 n).2 = false →
        (LinearAxis_timed_step sq (stallguard_seek_trace sq time stall st0 n).1.axis
            (time n)).2._current_move.steps_taken =
          (LinearAxis_timed_step sq (stallguard_seek_trace sq time stall st0 n).1.axis
            (time n)).2._current_move.accel_step_count →
        (stallguard_seek_trace sq time stall st0 (n+1)).1.axis.stepper.stallguard_on
          = true) := by
  have h1 : st0.axis._current_move.total_step_count = 0 ∨
      (st0.axis._current_move.accel_step_count = acc ∧
       st0.axis._current_move.total_step_count = tot ∧
       0 ≤ st0.axis._current_move.steps_taken ∧
       st0.axis._current_move.steps_taken < tot) := by
    by_cases h : tot = 0
    · left; omega
    · right; exact ⟨hacc, htot, by omega, by omega⟩
  have h2 : st0.axis.stepper.stallguard_on = st0.check_for_stall := by rw [hsg0, hcf]
  have h3 : st0.check_for_stall = true →
      (st0.axis._current_move.total_step_count = 0 ∨
       acc ≤ st0.axis._current_move.steps_taken) := by
    intro hc
    rw [hcf] at hc
    exact absurd hc (by decide)
  have hinvAll := seek_trace_SeekInv sq time stall st0 h1 h2 h3
  intro n
  obtain ⟨i1, i2, i3, i4⟩ := hinvAll n
  have hchk : ∀ hfl : (stallguard_seek_trace sq time stall st0 n).1.axis._current_move.total_step_count ≠ 0,
      (stallguard_seek_trace sq time stall st0 n).1.axis._current_move.steps_taken < acc →
      (stallguard_seek_trace sq time stall st0 n).1.check_for_stall = false := by
    intro hfl hklt
    cases hb : (stallguard_seek_trace sq time stall st0 n).1.check_for_stall
    · rfl
    · rcases i3 hb with h0 | hge
      · exact absurd h0 hfl
      · exact absurd hge (by omega)
  refine ⟨?_, ?_, ?_⟩
  · intro hfl hklt
    constructor
    · rw [i2, hchk hfl hklt]
    · cases hbb : (stallguard_seek_trace sq time stall st0 n).2
      · rfl
      · have hc := i4 hbb
        rw [hchk hfl hklt] at hc
        exact absurd hc (by decide)
  · intro hsgt
    rw [i2] at hsgt
    exact i3 hsgt
  · intro hnb harm
    unfold stallguard_seek_trace
    dsimp only
    rw [hnb]
    rw [if_neg (by decide)]
    simp only [stallguard_seek_body]
    rw [if_pos harm]
    rfl

theorem stallguard_armed_only_after_ramp_witness :
    seekStW.check_for_stall = false ∧
    seekStW.axis.stepper.stallguard_on = false ∧
    seekStW.axis._current_move.accel_step_count = 1 ∧
    seekStW.axis._current_move.total_step_count = 2 ∧
    seekStW.axis._current_move.steps_taken = 0 ∧
    ((stallguard_seek_trace sqW timeW stallFalseW seekStW 0).1.axis.stepper.stallguard_on
       = false ∧
     (stallguard_seek_trace sqW timeW stallFalseW seekStW 0).2 = false) ∧
    (stallguard_seek_trace sqW timeW stallFalseW seekStW 1).1.axis.stepper.stallguard_on
       = true := by
  have h := stallguard_armed_only_after_ramp sqW timeW stallFalseW 1 2 seekStW
    rfl rfl rfl rfl rfl (by decide)
  refine ⟨rfl, rfl, rfl, rfl, rfl, ?_, ?_⟩
  · exact (h 0).1 (by decide) (by decide)
  · exact (h 0).2.2 rfl (by decide)

theorem seek_body_no_stall_no_break (sq : ℚ → ℚ) (st : SeekState) (now : Int) :
    (stallguard_seek_body sq st now false).2 = false := by
  simp only [stallguard_seek_body]
  exact Bool.and_false _

theorem seek_loop_none_of_no_stall (sq : ℚ → ℚ) (time : ℕ → Int) (stall : ℕ → Bool)
    (hstall : ∀ i, stall i = false) :
    ∀ fuel i st, stallguard_seek_loop sq time stall fuel i st = none := by
  intro fuel
  induction fuel with
  | zero => intro i st; rfl
  | succ fuel ih =>
    intro i st
    unfold stallguard_seek_loop
    dsimp only
    rw [hstall i, seek_body_no_stall_no_break, if_neg (by decide)]
    exact ih (i + 1) _

theorem stallguard_seek_none_of_no_stall (sq : ℚ → ℚ) (time : ℕ → Int)
    (stall : ℕ → Bool) (hstall : ∀ i, stall i = false) :
    ∀ fuel m dist now, stallguard_seek sq time stall fuel m dist now = none := by
  intro fuel m dist now
  unfold stallguard_seek
  dsimp only
  rw [seek_loop_none_of_no_stall sq time stall hstall fuel 0 _]

theorem sensorless_home_none_of_no_stall (sq : ℚ → ℚ) (time1 : ℕ → Int)
    (stall1 : ℕ → Bool) (timeB time2 : ℕ → Int) (stall2 : ℕ → Bool)
    (hstall : ∀ i, stall1 i = false) :
    ∀ fuel1 fuelB fuel2 now1 nowB now2 m,
      LinearAxis_sensorless_home sq time1 stall1 timeB time2 stall2
        fuel1 fuelB fuel2 now1 nowB now2 m = none := by
  intro fuel1 fuelB fuel2 now1 nowB now2 m
  unfold LinearAxis_sensorless_home
  dsimp only
  rw [stallguard_seek_none_of_no_stall sq time1 stall1 hstall fuel1 _ _ now1]
  rfl

/-- Claim C3 counterexample: with the stall oracle that never reports a stall,
the concrete seek `stallguard_seek sqW timeW stallFalseW fuel axisW2 2 0`
returns for no fuel bound whatsoever, and neither does
`LinearAxis_sensorless_home`: the `while (true)` loop never exits, so the seek
does not "merely complete and return normally". -/
theorem seek_no_stall_nontermination_counterexample :
    (∀ i, stallFalseW i = false) ∧
    (¬ ∃ fuel, (stallguard_seek sqW timeW stallFalseW fuel axisW2 2 0).isSome = true) ∧
    (¬ ∃ fuel1 fuelB fuel2,
      (LinearAxis_sensorless_home sqW timeW stallFalseW timeW timeW stallFalseW
        fuel1 fuelB fuel2 0 0 0 axisW2).isSome = true) := by
  refine ⟨fun i => rfl, ?_, ?_⟩
  · rintro ⟨fuel, hf⟩
    rw [stallguard_seek_none_of_no_stall sqW timeW stallFalseW (fun i => rfl)
      fuel axisW2 2 0] at hf
    exact absurd hf (by decide)
  · rintro ⟨f1, fB, f2, hf⟩
    rw [sensorless_home_none_of_no_stall sqW timeW stallFalseW timeW timeW stallFalseW
      (fun i => rfl) f1 fB f2 0 0 0 axisW2] at hf
    exact absurd hf (by decide)

theorem seek_trace_progress (sq : ℚ → ℚ) (time : ℕ → Int) (stall : ℕ → Bool)
    (st0 : SeekState) (d tot s0 : Int)
    (hstall : ∀ i, stall i = false)
    (hinv0 : MoveInv d tot s0 st0.axis)
    (hk0 : st0.axis._current_move.total_step_count ≠ 0 →
      st0.axis._current_move.steps_taken = 0)
    (htime0 : st0.axis._next_step_at ≤ time 0)
    (hgap : ∀ i, time i + 5001 ≤ time (i + 1)) :
    ∀ n : ℕ,
      (stallguard_seek_trace sq time stall st0 n).2 = false ∧
      MoveInv d tot s0 (stallguard_seek_trace sq time stall st0 n).1.axis ∧
      (stallguard_seek_trace sq time stall st0 n).1.axis._next_step_at ≤ time n ∧
      ((stallguard_seek_trace sq time stall st0 n).1.axis._current_move.total_step_count
          ≠ 0 →
        (stallguard_seek_trace sq time stall st0 n).1.axis._current_move.steps_taken
          = (n : Int)) := by
  intro n
  induction n with
  | zero => exact ⟨rfl, hinv0, htime0, fun h => hk0 h⟩
  | succ n ih =>
    obtain ⟨ib, iinv, itime, iprog⟩ := ih
    have htr : stallguard_seek_trace sq time stall st0 (n + 1) =
        stallguard_seek_body sq (stallguard_seek_trace sq time stall st0 n).1
          (time n) (stall n) := by
      simp only [stallguard_seek_trace]
      rw [ib, if_neg (by decide)]
    have hdue : ¬ 0 <
        (stallguard_seek_trace sq time stall st0 n).1.axis._next_step_at - time n := by
      omega
    have hshape := timed_step_due_shape sq
      (stallguard_seek_trace sq time stall st0 n).1.axis (time n) hdue
    have hm1 : MoveInv d tot s0
        (LinearAxis_timed_step sq (stallguard_seek_trace sq time stall st0 n).1.axis
          (time n)).2 :=
      timed_step_MoveInv sq (time n) iinv
    have hmvb : (stallguard_seek_body sq (stallguard_seek_trace sq time stall st0 n).1
          (time n) (stall n)).1.axis._current_move =
        (LinearAxis_direct_step
          (stallguard_seek_trace sq time stall st0 n).1.axis)._current_move := by
      simp only [stallguard_seek_body]
      split
      · exact hshape.1
      · exact hshape.1
    rw [htr]
    refine ⟨?_, ?_, ?_, ?_⟩
    · simp only [stallguard_seek_body]
      rw [hstall n]
      exact Bool.and_false _
    · simp only [stallguard_seek_body]
      split
      · exact hm1
      · exact hm1
    · have hnext : (stallguard_seek_body sq
            (stallguard_seek_trace sq time stall st0 n).1
            (time n) (stall n)).1.axis._next_step_at =
          time n + (LinearAxis_calculate_step_interval sq (LinearAxis_direct_step
            (stallguard_seek_trace sq time stall st0 n).1.axis))._step_interval := by
        simp only [stallguard_seek_body]
        split
        · exact hshape.2.1
        · exact hshape.2.1
      rw [hnext]
      have h5 := calculate_step_interval_le sq (LinearAxis_direct_step
        (stallguard_seek_trace sq time stall st0 n).1.axis)
      have hg := hgap n
      omega
    · intro hne
      rw [hmvb] at hne ⊢
      rcases direct_step_shape (stallguard_seek_trace sq time stall st0 n).1.axis with
        ⟨h0, heq⟩ | ⟨h0, hst, hmv⟩
      · rw [heq] at hne ⊢
        exact absurd h0 hne
      · have hkn := iprog h0
        rcases hmv with ⟨hfin, hz⟩ | ⟨hfin, hinc⟩
        · rw [hz] at hne
          exact absurd rfl hne
        · rw [hinc]
          dsimp only
          rw [hkn]
          push_cast
          ring

/-- Claim C3 amended: if, during the sensorless homing seek, the driver's
stalled flag never becomes true, the underlying seek move still runs to
completion -- with ticks always due, after `total_step_count` loop iterations
the axis inside the loop is idle with its step counter at the terminus
`direction * total_step_count` -- but the loop in `stallguard_seek` never
exits: the seek returns `none` for every fuel bound and
`LinearAxis_sensorless_home` does not return (and so the axis never gets to
claim it is homed). -/
theorem seek_no_stall_completes_but_never_returns (sq : ℚ → ℚ) (time : ℕ → Int)
    (stall : ℕ → Bool) (m : LinearAxis) (dist : ℚ) (now : Int)
    (hstall : ∀ i, stall i = false) :
    (∀ fuel, stallguard_seek sq time stall fuel m dist now = none) ∧
    (∀ (timeB time2 : ℕ → Int) (stall2 : ℕ → Bool) (fuel1 fuelB fuel2 : ℕ)
        (nowB now2 : Int) (mh : LinearAxis),
      LinearAxis_sensorless_home sq time stall timeB time2 stall2
        fuel1 fuelB fuel2 now nowB now2 mh = none) ∧
    (now + 100 ≤ time 0 → (∀ i, time i + 5001 ≤ time (i + 1)) →
      ∀ mv st0,
        mv = LinearAxis_calculate_move
          { m with stepper := Stepper_disable_stallguard m.stepper } dist →
        st0 = SeekState.mk (LinearAxis_start_move
          { m with stepper := Stepper_disable_stallguard m.stepper } mv now) false →
        (stallguard_seek_trace sq time stall st0
            mv.total_step_count.toNat).1.axis._current_move.total_step_count = 0 ∧
        (stallguard_seek_trace sq time stall st0
            mv.total_step_count.toNat).1.axis.stepper.total_steps =
          m.stepper.total_steps + mv.direction * mv.total_step_count) := by
  refine ⟨fun fuel => stallguard_seek_none_of_no_stall sq time stall hstall fuel m dist now,
    fun timeB time2 stall2 fuel1 fuelB fuel2 nowB now2 mh =>
      sensorless_home_none_of_no_stall sq time stall timeB time2 stall2 hstall
        fuel1 fuelB fuel2 now nowB now2 mh, ?_⟩
  intro h0 hg mv st0 hmv hst0
  have hs : mv.steps_taken = 0 := by
    rw [hmv]; exact calculate_move_steps_taken _ _
  have ht : 0 ≤ mv.total_step_count := by
    rw [hmv, calculate_move_total]
    exact abs_nonneg _
  have hinv0 : MoveInv mv.direction mv.total_step_count m.stepper.total_steps st0.axis := by
    rw [hst0]
    exact start_move_MoveInv
      { m with stepper := Stepper_disable_stallguard m.stepper } mv now hs ht
  have hk0 : st0.axis._current_move.total_step_count ≠ 0 →
      st0.axis._current_move.steps_taken = 0 := by
    intro _
    rw [hst0]
    exact hs
  have htime0 : st0.axis._next_step_at ≤ time 0 := by
    rw [hst0]
    show now + 100 ≤ time 0
    exact h0
  have hprog := seek_trace_progress sq time stall st0 mv.direction mv.total_step_count
    m.stepper.total_steps hstall hinv0 hk0 htime0 hg mv.total_step_count.toNat
  obtain ⟨_, hminv, _, hsteps⟩ := hprog
  obtain ⟨_, hcase⟩ := hminv
  rcases hcase with ⟨htot, hk0', hklt, _⟩ | ⟨hz, hfinal⟩
  · exfalso
    have hktot := hsteps (by omega)
    rw [Int.toNat_of_nonneg ht] at hktot
    omega
  · exact ⟨hz, hfinal⟩

theorem seek_no_stall_completes_but_never_returns_witness :
    (∀ i, stallFalseW i = false) ∧
    stallguard_seek sqW timeW stallFalseW 5 axisW2 2 0 = none ∧
    LinearAxis_sensorless_home sqW timeW stallFalseW timeW timeW stallFalseW
      3 3 3 0 0 0 axisW2 = none ∧
    (stallguard_seek_trace sqW timeW stallFalseW
        (SeekState.mk (LinearAxis_start_move
          { axisW2 with stepper := Stepper_disable_stallguard axisW2.stepper }
          (LinearAxis_calculate_move
            { axisW2 with stepper := Stepper_disable_stallguard axisW2.stepper } 2) 0)
          false)
        (LinearAxis_calculate_move
          { axisW2 with stepper := Stepper_disable_stallguard axisW2.stepper }
          2).total_step_count.toNat).1.axis._current_move.total_step_count = 0 ∧
    (stallguard_seek_trace sqW timeW stallFalseW
        (SeekState.mk (LinearAxis_start_move
          { axisW2 with stepper := Stepper_disable_stallguard axisW2.stepper }
          (LinearAxis_calculate_move
            { axisW2 with stepper := Stepper_disable_stallguard axisW2.stepper } 2) 0)
          false)
        (LinearAxis_calculate_move
          { axisW2 with stepper := Stepper_disable_stallguard axisW2.stepper }
          2).total_step_count.toNat).1.axis.stepper.total_steps =
      axisW2.stepper.total_steps +
        (LinearAxis_calculate_move
          { axisW2 with stepper := Stepper_disable_stallguard axisW2.stepper }
          2).direction *
        (LinearAxis_calculate_move
          { axisW2 with stepper := Stepper_disable_stallguard axisW2.stepper }
          2).total_step_count := by
  have h := seek_no_stall_completes_but_never_returns sqW timeW stallFalseW axisW2 2 0
    (fun i => rfl)
  have hgap : ∀ i, timeW i + 5001 ≤ timeW (i + 1) := by
    intro i
    simp only [timeW]
    push_cast
    omega
  have h3 := h.2.2 (by decide) hgap _ _ rfl rfl
  exact ⟨fun i => rfl, h.1 5,
    h.2.1 timeW timeW stallFalseW 3 3 3 0 0 axisW2, h3.1, h3.2⟩

/-- Claim C9: both homing routines substitute the homing kinematics and zero
the stepper's step counter before the initial seek (their common entry), and
whenever they return they have restored `velocity_mm_s` and
`acceleration_mm_s2` to their values at entry. -/
theorem homing_restores_kinematics (m : LinearAxis) :
    (homing_entry m).stepper.total_steps = 0 ∧
    (homing_entry m).velocity_mm_s = m.homing_velocity_mm_s ∧
    (homing_entry m).acceleration_mm_s2 = m.homing_acceleration_mm_s2 ∧
    (∀ (sq : ℚ → ℚ) (time1 : ℕ → Int) (stall1 : ℕ → Bool) (timeB time2 : ℕ → Int)
        (stall2 : ℕ → Bool) (fuel1 fuelB fuel2 : ℕ) (now1 nowB now2 : Int)
        (m' : LinearAxis),
      LinearAxis_sensorless_home sq time1 stall1 timeB time2 stall2
        fuel1 fuelB fuel2 now1 nowB now2 m = some m' →
      m'.velocity_mm_s = m.velocity_mm_s ∧
      m'.acceleration_mm_s2 = m.acceleration_mm_s2) ∧
    (∀ (sq : ℚ → ℚ) (time1 : ℕ → Int) (gpio1 : ℕ → ℕ) (timeB time2 : ℕ → Int)
        (gpio2 : ℕ → ℕ) (fuel1 fuelB fuel2 : ℕ) (now1 nowB now2 : Int)
        (m' : LinearAxis),
      LinearAxis_endstop_home sq time1 gpio1 timeB time2 gpio2
        fuel1 fuelB fuel2 now1 nowB now2 m = some m' →
      m'.velocity_mm_s = m.velocity_mm_s ∧
      m'.acceleration_mm_s2 = m.acceleration_mm_s2) := by
  refine ⟨rfl, rfl, rfl, ?_, ?_⟩
  · intro sq time1 stall1 timeB time2 stall2 fuel1 fuelB fuel2 now1 nowB now2 m' hm
    simp only [LinearAxis_sensorless_home, Option.bind_eq_some, Option.some.injEq] at hm
    obtain ⟨m1, h1, m3, h3, m5, h5, hm⟩ := hm
    subst hm
    exact ⟨rfl, rfl⟩
  · intro sq time1 gpio1 timeB time2 gpio2 fuel1 fuelB fuel2 now1 nowB now2 m' hm
    simp only [LinearAxis_endstop_home, Option.bind_eq_some, Option.some.injEq] at hm
    obtain ⟨m1, h1, m3, h3, m5, h5, hm⟩ := hm
    subst hm
    exact ⟨rfl, rfl⟩

theorem homing_restores_kinematics_witness :
    (homing_entry axisW9).stepper.total_steps = 0 ∧
    (∃ m', LinearAxis_sensorless_home sqW timeW stallTrueW timeW timeW stallTrueW
        3 3 3 0 0 0 axisW9 = some m' ∧
      m'.velocity_mm_s = axisW9.velocity_mm_s ∧
      m'.acceleration_mm_s2 = axisW9.acceleration_mm_s2) ∧
    (∃ m', LinearAxis_endstop_home sqW timeW gpioOneW timeW timeW gpioOneW
        3 3 3 0 0 0 axisW9 = some m' ∧
      m'.velocity_mm_s = axisW9.velocity_mm_s ∧
      m'.acceleration_mm_s2 = axisW9.acceleration_mm_s2) := by
  have h := homing_restores_kinematics axisW9
  have hce3 : (⌈(3:ℚ)⌉ : Int) = 3 := by
    rw [show (3:ℚ) = ((3:Int):ℚ) by norm_num]
    exact Int.ceil_intCast 3
  have hlr3 : lroundQ (3 : ℚ) = 3 := lroundQ_eq_of_eq_intCast (by norm_num)
  have hlr1 : lroundQ (1 : ℚ) = 1 := lroundQ_eq_of_eq_intCast (by norm_num)
  have hlr0 : lroundQ (0 : ℚ) = 0 := lroundQ_eq_of_eq_intCast (by norm_num)
  have h500k : truncQ (500000 : ℚ) = 500000 := truncQ_eq_of_eq_intCast (by norm_num)
  have ht1000b : truncQ (1000 : ℚ) = 1000 := truncQ_eq_of_eq_intCast (by norm_num)
  have hlr225 : lroundQ ((2:ℚ)/25) = 0 :=
    lroundQ_eval_nonneg (by norm_num) (by norm_num) (by norm_num)
  have hs : LinearAxis_sensorless_home sqW timeW stallTrueW timeW timeW stallTrueW
      3 3 3 0 0 0 axisW9 =
      some { axisW9 with
             stepper := { total_steps := 0, direction := 1, stallguard_on := false,
                          stallguard_threshold := 100 },
             _current_move := LinearAxisMovement.zero,
             _step_interval := 1000,
             _next_step_at := 1100 } := by
    norm_num [LinearAxis_sensorless_home, homing_entry, stallguard_seek,
      stallguard_seek_loop, stallguard_seek_body, move_loop, LinearAxis_is_moving,
      LinearAxis_stop, LinearAxis_reset_position, Stepper_disable_stallguard,
      Stepper_enable_stallguard, LinearAxis_start_move, LinearAxis_calculate_move,
      LinearAxis_dest_steps, LinearAxis_accel_steps, LinearAxis_timed_step,
      LinearAxis_direct_step, LinearAxis_calculate_step_interval,
      LinearAxis_inst_velocity, Stepper_step, Stepper_step_two, sqW, timeW,
      stallTrueW, axisW9, axisW2, axisW, stepperW, LinearAxisMovement.zero,
      hce3, hlr3, hlr1, hlr0, h500k, ht1000b]
  have he : LinearAxis_endstop_home sqW timeW gpioOneW timeW timeW gpioOneW
      3 3 3 0 0 0 axisW9 =
      some { axisW9 with
             stepper := { total_steps := 0, direction := 1, stallguard_on := false,
                          stallguard_threshold := 0 },
             _current_move := LinearAxisMovement.zero,
             _step_interval := 100,
             _next_step_at := 100 } := by
    norm_num [LinearAxis_endstop_home, homing_entry, endstop_seek,
      endstop_seek_loop, move_loop, LinearAxis_is_moving,
      LinearAxis_stop, LinearAxis_reset_position,
      LinearAxis_start_move, LinearAxis_calculate_move,
      LinearAxis_dest_steps, LinearAxis_accel_steps,
      gpioOneW, sqW, timeW, axisW9, axisW2, axisW, stepperW, LinearAxisMovement.zero,
      hce3, hlr3, hlr1, hlr0, hlr225]
  refine ⟨h.1, ⟨_, hs, ?_⟩, ⟨_, he, ?_⟩⟩
  · exact h.2.2.2.1 sqW timeW stallTrueW timeW timeW stallTrueW 3 3 3 0 0 0 _ hs
  · exact h.2.2.2.2 sqW timeW gpioOneW timeW timeW gpioOneW 3 3 3 0 0 0 _ he
